import Mathlib

/-!
Shallow embedding of the iptables rule-derivation engine in
`src/cmd/iptables/main.go` (package main of cmd/iptables).

The engine appends ordered rule insertions to an append-only builder and
finally realizes the accumulated IPv4 rules as commands.  We model the
accumulated builder state as a `List Rule`, in append order; each
`AppendRuleV4` call becomes one list element.  Go strings are Lean
`String`s; `strings.Split(s, ",")` (a single-character separator here)
is modelled by splitting the string's character list on `','`.
-/

namespace Amesh

/-- Chain-name constants from the source. -/
def InboundChain : String := "APISIX_INBOUND"

def RedirectChain : String := "APISIX_REDIRECT"

def InboundRedirectChain : String := "APISIX_INBOUND_REDIRECT"

def OutputChain : String := "OUTPUT"

def PreRoutingChain : String := "PREROUTING"

/-- IP version tag of a builder entry; the engine only ever calls the
v4 append. -/
inductive IPVersion where
  | v4
  | v6
deriving DecidableEq

/-- One rule insertion recorded by the builder: ip version, target chain,
table, and the iptables argument vector. -/
structure Rule where
  version : IPVersion
  chain : String
  table : String
  args : List String
deriving DecidableEq

/-- `AppendRuleV4(command, chain, table, args...)`: records an IPv4 rule. -/
def appendRuleV4 (chain table : String) (args : List String) : Rule :=
  ⟨IPVersion.v4, chain, table, args⟩

/-- The configuration fields of `iptablesconf.Config` read by the engine. -/
structure Config where
  InboundInterceptionMode : String
  InboundCapturePort : String
  ProxyPort : String
  InboundPortsInclude : String
  OutboundPortsInclude : String
  InboundPortsExclude : String
  OutboundPortsExclude : String
  ProxyUID : String
  ProxyGID : String
  DryRun : Bool
deriving DecidableEq

/-- `filterEmpty`: drop empty strings, keeping order. -/
def filterEmpty : List String → List String
  | [] => []
  | s :: rest => if s = "" then filterEmpty rest else s :: filterEmpty rest

/-- `split`: nil on the empty string, otherwise `strings.Split(s, ",")`
with empty tokens dropped.  The comma split is modelled on the string's
character list. -/
def split (s : String) : List String :=
  if s = "" then []
  else filterEmpty ((s.data.splitOn ',').map String.mk)

/-- The two baseline redirect-target rules appended at the top of `run`. -/
def baselineRules (cfg : Config) : List Rule :=
  [ appendRuleV4 RedirectChain "nat"
      ["-p", "tcp", "-j", "REDIRECT", "--to-ports", cfg.ProxyPort],
    appendRuleV4 InboundRedirectChain "nat"
      ["-p", "tcp", "-j", "REDIRECT", "--to-ports", cfg.InboundCapturePort] ]

/-- `insertSkipRules`: the loopback-plus-uid-owner RETURN and the
gid-owner RETURN, both in OUTPUT. -/
def insertSkipRules (cfg : Config) : List Rule :=
  [ appendRuleV4 OutputChain "nat"
      ["-o", "lo", "!", "-d", "127.0.0.1/32", "-m", "owner",
       "--uid-owner", cfg.ProxyUID, "-j", "RETURN"],
    appendRuleV4 OutputChain "nat"
      ["-m", "owner", "--gid-owner", cfg.ProxyGID, "-j", "RETURN"] ]

/-- `insertInboundRules`: no-op on empty include; otherwise the
PREROUTING jump, then either the wildcard branch (SSH return, exclude
returns, catch-all) or one jump per explicit include port. -/
def insertInboundRules (cfg : Config) : List Rule :=
  if cfg.InboundPortsInclude = "" then []
  else
    appendRuleV4 PreRoutingChain "nat" ["-p", "tcp", "-j", InboundChain] ::
      (if cfg.InboundPortsInclude = "*" then
        appendRuleV4 InboundChain "nat"
            ["-p", "tcp", "--dport", "22", "-j", "RETURN"] ::
          ((if cfg.InboundPortsExclude ≠ "" then
              (split cfg.InboundPortsExclude).map fun port =>
                appendRuleV4 InboundChain "nat"
                  ["-p", "tcp", "--dport", port, "-j", "RETURN"]
            else []) ++
            [appendRuleV4 InboundChain "nat"
              ["-p", "tcp", "-j", InboundRedirectChain]])
      else
        (split cfg.InboundPortsInclude).map fun port =>
          appendRuleV4 InboundChain "nat"
            ["-p", "tcp", "--dport", port, "-j", InboundRedirectChain])

/-- `insertOutboundRules`: no-op on empty include; wildcard branch emits
exclude returns then the catch-all jump to the redirect chain; explicit
branch emits one jump per include port. -/
def insertOutboundRules (cfg : Config) : List Rule :=
  if cfg.OutboundPortsInclude = "" then []
  else if cfg.OutboundPortsInclude = "*" then
    (if cfg.OutboundPortsExclude ≠ "" then
        (split cfg.OutboundPortsExclude).map fun port =>
          appendRuleV4 OutputChain "nat"
            ["-p", "tcp", "--dport", port, "-j", "RETURN"]
      else []) ++
      [appendRuleV4 OutputChain "nat" ["-p", "tcp", "-j", RedirectChain]]
  else
    (split cfg.OutboundPortsInclude).map fun port =>
      appendRuleV4 OutputChain "nat"
        ["-p", "tcp", "--dport", port, "-j", RedirectChain]

/-- `run`: the full ordered emission — baseline targets, skip rules,
inbound rules, outbound rules. -/
def run (cfg : Config) : List Rule :=
  baselineRules cfg ++ insertSkipRules cfg ++
    insertInboundRules cfg ++ insertOutboundRules cfg

/-- The comma-join of a token list, the inverse direction of `split`. -/
def joinComma : List String → String
  | [] => ""
  | [s] => s
  | s :: rest => s ++ "," ++ joinComma rest

/-- An inbound capture rule: a rule on the PREROUTING entry chain or on
the custom inbound dispatch chain. -/
def isInboundCaptureRule (r : Rule) : Prop :=
  r.chain = PreRoutingChain ∨ r.chain = InboundChain

/-- An outbound capture rule: an OUTPUT-chain rule that matches TCP
(argument vector starts with the protocol flag, unlike the owner-match
skip rules) and either returns on a port or jumps to the redirect
chain. -/
def isOutboundCaptureRule (r : Rule) : Prop :=
  r.chain = OutputChain ∧ r.args.head? = some "-p" ∧
    ("RETURN" ∈ r.args ∨ RedirectChain ∈ r.args)

/-- Result of `user.Lookup`: the resolved Uid and Gid of a user. -/
structure User where
  Uid : String
  Gid : String

/-- The command body behind the CLI: look up the proxy user, abort
(`none`) when the lookup fails, otherwise overwrite ProxyUID and
ProxyGID with the resolved identity and run the engine. -/
def runCommand (lookup : String → Option User) (proxyUser : String)
    (cfg : Config) : Option (List Rule) :=
  match lookup proxyUser with
  | none => none
  | some usr => some (run { cfg with ProxyUID := usr.Uid, ProxyGID := usr.Gid })

/-- The default value of the apisix-user flag. -/
def defaultProxyUser : String := "nobody"

/-- The scenario-A configuration: wildcard inbound capture excluding port
9081, no outbound capture, proxy identity 100/100. -/
def cfgA : Config :=
  { InboundInterceptionMode := "REDIRECT"
    InboundCapturePort := "9081"
    ProxyPort := "9080"
    InboundPortsInclude := "*"
    OutboundPortsInclude := ""
    InboundPortsExclude := "9081"
    OutboundPortsExclude := ""
    ProxyUID := "100"
    ProxyGID := "100"
    DryRun := false }

/-- The scenario-B configuration: outbound capture of port 80 only, all
other port lists empty. -/
def cfgB : Config :=
  { cfgA with InboundPortsInclude := "", InboundPortsExclude := "", OutboundPortsInclude := "80" }

lemma filterEmpty_eq_filter (l : List String) :
    filterEmpty l = l.filter (fun s => s != "") := by
  induction l with
  | nil => rfl
  | cons a rest ih =>
    by_cases ha : a = "" <;> simp [filterEmpty, ha, ih, List.filter_cons]

lemma not_mem_of_mem_splitOn {α : Type _} [DecidableEq α] {x : α} :
    ∀ {xs l : List α}, l ∈ xs.splitOn x → x ∉ l := by
  intro xs
  induction xs with
  | nil =>
    intro l hl
    simp only [List.splitOn, List.splitOnP_nil, List.mem_singleton] at hl
    subst hl
    exact List.not_mem_nil x
  | cons a rest ih =>
    intro l hl
    rw [List.splitOn, List.splitOnP_cons] at hl
    by_cases hax : (a == x) = true
    · rw [if_pos hax] at hl
      rcases List.mem_cons.mp hl with rfl | hl2
      · exact List.not_mem_nil x
      · exact ih (by rwa [List.splitOn])
    · rw [if_neg hax] at hl
      rcases hsp : List.splitOnP (· == x) rest with _ | ⟨hd, tl⟩
      · exact absurd hsp (List.splitOnP_ne_nil _ _)
      · rw [hsp] at hl
        simp only [List.modifyHead] at hl
        rcases List.mem_cons.mp hl with rfl | hl2
        · intro hx
          rcases List.mem_cons.mp hx with rfl | hx2
          · exact hax (beq_self_eq_true _)
          · exact ih (l := hd)
              (by rw [List.splitOn, hsp]; exact List.mem_cons_self hd tl) hx2
        · exact ih (by rw [List.splitOn, hsp]; exact List.mem_cons.mpr (Or.inr hl2))

lemma split_tokens {s : String} : ∀ t ∈ split s, t ≠ "" ∧ ',' ∉ t.data := by
  intro t ht
  rw [split] at ht
  by_cases hs : s = ""
  · rw [if_pos hs] at ht
    cases ht
  · rw [if_neg hs, filterEmpty_eq_filter, List.mem_filter] at ht
    obtain ⟨hmem, hne⟩ := ht
    rcases List.mem_map.mp hmem with ⟨l, hl, rfl⟩
    exact ⟨by simpa [bne_iff_ne] using hne, not_mem_of_mem_splitOn hl⟩

lemma data_joinComma (l : List String) :
    (joinComma l).data = [','].intercalate (l.map String.data) := by
  induction l with
  | nil => rfl
  | cons s rest ih =>
    cases rest with
    | nil => simp [joinComma, List.intercalate]
    | cons a rest' =>
      simp only [joinComma] at ih ⊢
      rw [String.data_append, String.data_append, ih]
      simp [List.intercalate, List.intersperse, List.append_assoc]

lemma joinComma_ne_empty {t : String} {rest : List String} (ht : t ≠ "") :
    joinComma (t :: rest) ≠ "" := by
  cases rest with
  | nil => simpa [joinComma] using ht
  | cons a rest' =>
    intro h
    have hd : (joinComma (t :: a :: rest')).data = [] := by rw [h]
    rw [show joinComma (t :: a :: rest') = t ++ "," ++ joinComma (a :: rest')
      from rfl] at hd
    simp [String.data_append] at hd

/-- C8: The normalizer sends the empty string to the empty list, sends
the string 80 comma comma 443 comma to the two tokens 80 and 443 in
order, and is idempotent: re-normalizing the comma-join of any
normalized output gives the same sequence back. -/
theorem split_normalizer_spec :
    split "" = [] ∧ split "80,,443," = ["80", "443"] ∧
      ∀ s : String, split (joinComma (split s)) = split s := by
  refine ⟨rfl, by decide, ?_⟩
  intro s
  rcases hts : split s with _ | ⟨t, rest⟩
  · rfl
  · have htokens : ∀ u ∈ split s, u ≠ "" ∧ ',' ∉ u.data := split_tokens
    rw [hts] at htokens
    have ht : t ≠ "" := (htokens t (List.mem_cons_self _ _)).1
    rw [split, if_neg (joinComma_ne_empty ht), data_joinComma]
    have hx : ∀ l ∈ (t :: rest).map String.data, ',' ∉ l := by
      intro l hl
      rcases List.mem_map.mp hl with ⟨u, hu, rfl⟩
      exact (htokens u hu).2
    rw [List.splitOn_intercalate _ ',' hx (by simp), List.map_map]
    have hid : (String.mk ∘ String.data) = id := funext fun u => rfl
    rw [hid, List.map_id, filterEmpty_eq_filter]
    exact List.filter_eq_self.mpr fun u hu => by
      simpa [bne_iff_ne] using (htokens u hu).1

lemma mem_baselineRules_chain {cfg : Config} {r : Rule}
    (h : r ∈ baselineRules cfg) :
    r.chain = RedirectChain ∨ r.chain = InboundRedirectChain := by
  rcases List.mem_cons.mp h with rfl | h2
  · exact Or.inl rfl
  · obtain rfl := List.mem_singleton.mp h2
    exact Or.inr rfl

lemma mem_insertSkipRules_chain {cfg : Config} {r : Rule}
    (h : r ∈ insertSkipRules cfg) : r.chain = OutputChain := by
  rcases List.mem_cons.mp h with rfl | h2
  · rfl
  · obtain rfl := List.mem_singleton.mp h2
    rfl

lemma mem_insertSkipRules_head {cfg : Config} {r : Rule}
    (h : r ∈ insertSkipRules cfg) :
    r.args.head? = some "-o" ∨ r.args.head? = some "-m" := by
  rcases List.mem_cons.mp h with rfl | h2
  · exact Or.inl rfl
  · obtain rfl := List.mem_singleton.mp h2
    exact Or.inr rfl

lemma mem_insertInboundRules_chain {cfg : Config} {r : Rule}
    (h : r ∈ insertInboundRules cfg) :
    r.chain = PreRoutingChain ∨ r.chain = InboundChain := by
  rw [insertInboundRules] at h
  by_cases h1 : cfg.InboundPortsInclude = ""
  · rw [if_pos h1] at h
    cases h
  · rw [if_neg h1] at h
    rcases List.mem_cons.mp h with rfl | h2
    · exact Or.inl rfl
    · right
      by_cases h3 : cfg.InboundPortsInclude = "*"
      · rw [if_pos h3] at h2
        rcases List.mem_cons.mp h2 with rfl | h4
        · rfl
        · rcases List.mem_append.mp h4 with h5 | h5
          · by_cases h6 : cfg.InboundPortsExclude ≠ ""
            · rw [if_pos h6] at h5
              rcases List.mem_map.mp h5 with ⟨port, _, rfl⟩
              rfl
            · rw [if_neg h6] at h5
              cases h5
          · obtain rfl := List.mem_singleton.mp h5
            rfl
      · rw [if_neg h3] at h2
        rcases List.mem_map.mp h2 with ⟨port, _, rfl⟩
        rfl

lemma mem_insertOutboundRules_shape {cfg : Config} {r : Rule}
    (h : r ∈ insertOutboundRules cfg) :
    r.chain = OutputChain ∧ r.args.head? = some "-p" := by
  rw [insertOutboundRules] at h
  by_cases h1 : cfg.OutboundPortsInclude = ""
  · rw [if_pos h1] at h
    cases h
  · rw [if_neg h1] at h
    by_cases h2 : cfg.OutboundPortsInclude = "*"
    · rw [if_pos h2] at h
      rcases List.mem_append.mp h with h3 | h3
      · by_cases h4 : cfg.OutboundPortsExclude ≠ ""
        · rw [if_pos h4] at h3
          rcases List.mem_map.mp h3 with ⟨port, _, rfl⟩
          exact ⟨rfl, rfl⟩
        · rw [if_neg h4] at h3
          cases h3
      · obtain rfl := List.mem_singleton.mp h3
        exact ⟨rfl, rfl⟩
    · rw [if_neg h2] at h
      rcases List.mem_map.mp h with ⟨port, _, rfl⟩
      exact ⟨rfl, rfl⟩

lemma filter_inboundChain_map (l : List String) (g : String → Rule)
    (hg : ∀ port, (g port).chain = InboundChain) :
    (l.map g).filter (fun r => r.chain == InboundChain) = l.map g := by
  refine List.filter_eq_self.mpr ?_
  intro r hr
  rcases List.mem_map.mp hr with ⟨port, _, rfl⟩
  simp [hg]

lemma filter_not_inboundChain {l : List Rule}
    (h : ∀ r ∈ l, r.chain ≠ InboundChain) :
    l.filter (fun r => r.chain == InboundChain) = [] := by
  refine List.filter_eq_nil_iff.mpr ?_
  intro r hr
  simp only [beq_iff_eq]
  exact h r hr

lemma filter_insertOutboundRules_inboundChain (cfg : Config) :
    (insertOutboundRules cfg).filter (fun r => r.chain == InboundChain) = [] :=
  filter_not_inboundChain fun r hr => by
    rw [(mem_insertOutboundRules_shape hr).1]
    decide

/-- C1: On the scenario-A configuration the engine emits exactly, in
order: the baseline redirect rule to port 9080, the baseline
inbound-redirect rule to port 9081, the loopback-UID skip rule, the GID
skip rule, the PREROUTING jump into the inbound chain, the port-22 SSH
return, the port-9081 return, and the catch-all jump to the
inbound-redirect chain; no outbound capture rule appears. -/
theorem scenarioA_rule_sequence :
    run cfgA =
      [ appendRuleV4 RedirectChain "nat"
          ["-p", "tcp", "-j", "REDIRECT", "--to-ports", "9080"],
        appendRuleV4 InboundRedirectChain "nat"
          ["-p", "tcp", "-j", "REDIRECT", "--to-ports", "9081"],
        appendRuleV4 OutputChain "nat"
          ["-o", "lo", "!", "-d", "127.0.0.1/32", "-m", "owner",
           "--uid-owner", "100", "-j", "RETURN"],
        appendRuleV4 OutputChain "nat"
          ["-m", "owner", "--gid-owner", "100", "-j", "RETURN"],
        appendRuleV4 PreRoutingChain "nat" ["-p", "tcp", "-j", InboundChain],
        appendRuleV4 InboundChain "nat"
          ["-p", "tcp", "--dport", "22", "-j", "RETURN"],
        appendRuleV4 InboundChain "nat"
          ["-p", "tcp", "--dport", "9081", "-j", "RETURN"],
        appendRuleV4 InboundChain "nat"
          ["-p", "tcp", "-j", InboundRedirectChain] ] := by
  decide

/-- C2: Whenever inboundPortsInclude is the wildcard marker, the rules
emitted on the inbound chain are exactly the hard-coded port-22 RETURN,
then one RETURN per token of the normalized exclude list in list order,
and finally the catch-all jump to the inbound-redirect chain. -/
theorem wildcard_inbound_chain_shape (cfg : Config)
    (h : cfg.InboundPortsInclude = "*") :
    (run cfg).filter (fun r => r.chain == InboundChain) =
      appendRuleV4 InboundChain "nat"
          ["-p", "tcp", "--dport", "22", "-j", "RETURN"] ::
        (((split cfg.InboundPortsExclude).map fun port =>
            appendRuleV4 InboundChain "nat"
              ["-p", "tcp", "--dport", port, "-j", "RETURN"]) ++
          [appendRuleV4 InboundChain "nat"
            ["-p", "tcp", "-j", InboundRedirectChain]]) := by
  rw [run, List.filter_append, List.filter_append, List.filter_append]
  have hb : (baselineRules cfg).filter (fun r => r.chain == InboundChain) = [] := rfl
  have hs : (insertSkipRules cfg).filter (fun r => r.chain == InboundChain) = [] := rfl
  rw [hb, hs, filter_insertOutboundRules_inboundChain, List.append_nil,
    List.nil_append, List.nil_append]
  rw [insertInboundRules, if_neg (by rw [h]; decide), if_pos h]
  by_cases he : cfg.InboundPortsExclude = ""
  · rw [if_neg (fun hc => hc he), he]
    rfl
  · rw [if_pos he]
    rw [List.filter_cons_of_neg (by decide), List.filter_cons_of_pos (by decide),
      List.filter_append]
    rw [filter_inboundChain_map _ _ (fun port => rfl)]
    rfl

/-- Closed instance of the wildcard inbound-chain shape theorem at the
scenario-A configuration. -/
theorem wildcard_inbound_chain_shape_witness :
    (run cfgA).filter (fun r => r.chain == InboundChain) =
      appendRuleV4 InboundChain "nat"
          ["-p", "tcp", "--dport", "22", "-j", "RETURN"] ::
        (((split cfgA.InboundPortsExclude).map fun port =>
            appendRuleV4 InboundChain "nat"
              ["-p", "tcp", "--dport", port, "-j", "RETURN"]) ++
          [appendRuleV4 InboundChain "nat"
            ["-p", "tcp", "-j", InboundRedirectChain]]) :=
  wildcard_inbound_chain_shape cfgA (by decide)

/-- C3: Whenever inboundPortsInclude is an explicit non-empty,
non-wildcard list, the inbound-chain rules are exactly one jump to the
inbound-redirect chain per normalized include token, in list order, and
the catch-all jump rule is never emitted at all. -/
theorem explicit_inbound_chain_shape (cfg : Config)
    (h1 : cfg.InboundPortsInclude ≠ "") (h2 : cfg.InboundPortsInclude ≠ "*") :
    (run cfg).filter (fun r => r.chain == InboundChain) =
      (split cfg.InboundPortsInclude).map (fun port =>
        appendRuleV4 InboundChain "nat"
          ["-p", "tcp", "--dport", port, "-j", InboundRedirectChain]) ∧
    appendRuleV4 InboundChain "nat" ["-p", "tcp", "-j", InboundRedirectChain]
      ∉ run cfg := by
  constructor
  · rw [run, List.filter_append, List.filter_append, List.filter_append]
    have hb : (baselineRules cfg).filter (fun r => r.chain == InboundChain) = [] := rfl
    have hs : (insertSkipRules cfg).filter (fun r => r.chain == InboundChain) = [] := rfl
    rw [hb, hs, filter_insertOutboundRules_inboundChain, List.append_nil,
      List.nil_append, List.nil_append]
    rw [insertInboundRules, if_neg h1, if_neg h2]
    rw [List.filter_cons_of_neg (by decide)]
    exact filter_inboundChain_map _ _ (fun port => rfl)
  · intro hmem
    rw [run] at hmem
    rcases List.mem_append.mp hmem with hmem | ho
    rcases List.mem_append.mp hmem with hmem | hi
    rcases List.mem_append.mp hmem with hb | hs
    · rcases mem_baselineRules_chain hb with hc | hc <;> exact absurd hc (by decide)
    · exact absurd (mem_insertSkipRules_chain hs) (by decide)
    · rw [insertInboundRules, if_neg h1, if_neg h2] at hi
      rcases List.mem_cons.mp hi with heq | hi2
      · exact absurd (congrArg Rule.chain heq) (by decide)
      · rcases List.mem_map.mp hi2 with ⟨port, _, heq⟩
        have := congrArg (fun r => r.args.length) heq
        simp [appendRuleV4] at this
    · exact absurd (mem_insertOutboundRules_shape ho).1 (by decide)

/-- Closed instance of the explicit inbound-chain shape theorem at a
configuration whose include list is 80,443. -/
theorem explicit_inbound_chain_shape_witness :
    (run { cfgA with InboundPortsInclude := "80,443" }).filter
        (fun r => r.chain == InboundChain) =
      (split ({ cfgA with InboundPortsInclude := "80,443" } :
            Config).InboundPortsInclude).map (fun port =>
        appendRuleV4 InboundChain "nat"
          ["-p", "tcp", "--dport", port, "-j", InboundRedirectChain]) ∧
    appendRuleV4 InboundChain "nat" ["-p", "tcp", "-j", InboundRedirectChain]
      ∉ run { cfgA with InboundPortsInclude := "80,443" } :=
  explicit_inbound_chain_shape _ (by decide) (by decide)

lemma not_inboundCapture_of_chain {r : Rule} (h1 : r.chain ≠ PreRoutingChain)
    (h2 : r.chain ≠ InboundChain) : ¬ isInboundCaptureRule r :=
  fun hc => Or.elim hc h1 h2

lemma not_outboundCapture_of_chain {r : Rule} (h : r.chain ≠ OutputChain) :
    ¬ isOutboundCaptureRule r :=
  fun hc => h hc.1

lemma not_outboundCapture_of_head {r : Rule}
    (h : r.args.head? ≠ some "-p") : ¬ isOutboundCaptureRule r :=
  fun hc => h hc.2.1

lemma not_capture_baseline {r : Rule}
    (h : r.chain = RedirectChain ∨ r.chain = InboundRedirectChain) :
    ¬(isInboundCaptureRule r ∨ isOutboundCaptureRule r) := by
  rintro (hc | hc)
  · rcases h with h | h <;> rcases hc with hc | hc <;>
      exact absurd (h.symm.trans hc) (by decide)
  · rcases h with h | h <;> exact absurd (h.symm.trans hc.1) (by decide)

lemma not_capture_skip {r : Rule} (hchain : r.chain = OutputChain)
    (hhead : r.args.head? = some "-o" ∨ r.args.head? = some "-m") :
    ¬(isInboundCaptureRule r ∨ isOutboundCaptureRule r) := by
  rintro (hc | hc)
  · rcases hc with hc | hc <;> exact absurd (hchain.symm.trans hc) (by decide)
  · rcases hhead with hh | hh <;>
      exact absurd (hh.symm.trans hc.2.1) (by decide)

/-- C4: On every configuration the two skip rules occupy positions 2 and
3 of the emitted sequence, and every inbound or outbound capture rule
sits at a strictly later position, so the skip rules always precede
every capture rule. -/
theorem skip_rules_precede_capture_rules (cfg : Config) :
    (run cfg).get? 2 = some (appendRuleV4 OutputChain "nat"
        ["-o", "lo", "!", "-d", "127.0.0.1/32", "-m", "owner",
         "--uid-owner", cfg.ProxyUID, "-j", "RETURN"]) ∧
    (run cfg).get? 3 = some (appendRuleV4 OutputChain "nat"
        ["-m", "owner", "--gid-owner", cfg.ProxyGID, "-j", "RETURN"]) ∧
    ∀ (j : ℕ) (r : Rule), (run cfg).get? j = some r →
      isInboundCaptureRule r ∨ isOutboundCaptureRule r → 3 < j := by
  refine ⟨rfl, rfl, ?_⟩
  intro j r hj hcap
  rcases j with _ | _ | _ | _ | j
  · have h0 : some (appendRuleV4 RedirectChain "nat"
        ["-p", "tcp", "-j", "REDIRECT", "--to-ports", cfg.ProxyPort]) =
        some r := hj
    obtain rfl := Option.some.inj h0
    exact absurd hcap (not_capture_baseline (Or.inl rfl))
  · have h0 : some (appendRuleV4 InboundRedirectChain "nat"
        ["-p", "tcp", "-j", "REDIRECT", "--to-ports",
         cfg.InboundCapturePort]) = some r := hj
    obtain rfl := Option.some.inj h0
    exact absurd hcap (not_capture_baseline (Or.inr rfl))
  · have h0 : some (appendRuleV4 OutputChain "nat"
        ["-o", "lo", "!", "-d", "127.0.0.1/32", "-m", "owner",
         "--uid-owner", cfg.ProxyUID, "-j", "RETURN"]) = some r := hj
    obtain rfl := Option.some.inj h0
    exact absurd hcap (not_capture_skip rfl (Or.inl rfl))
  · have h0 : some (appendRuleV4 OutputChain "nat"
        ["-m", "owner", "--gid-owner", cfg.ProxyGID, "-j", "RETURN"]) =
        some r := hj
    obtain rfl := Option.some.inj h0
    exact absurd hcap (not_capture_skip rfl (Or.inr rfl))
  · omega

/-- Closed instance of the skip-precedence theorem at the scenario-A
configuration, taking the PREROUTING capture rule at position 4. -/
theorem skip_rules_precede_capture_rules_witness :
    (run cfgA).get? 2 = some (appendRuleV4 OutputChain "nat"
        ["-o", "lo", "!", "-d", "127.0.0.1/32", "-m", "owner",
         "--uid-owner", "100", "-j", "RETURN"]) ∧ 3 < 4 :=
  ⟨(skip_rules_precede_capture_rules cfgA).1,
    (skip_rules_precede_capture_rules cfgA).2.2 4
      (appendRuleV4 PreRoutingChain "nat" ["-p", "tcp", "-j", InboundChain])
      rfl (Or.inl (Or.inl rfl))⟩

lemma insertInboundRules_exclude_irrelevant (cfg : Config) (e₁ e₂ : String)
    (h : cfg.InboundPortsInclude ≠ "*") :
    insertInboundRules { cfg with InboundPortsExclude := e₁ } =
      insertInboundRules { cfg with InboundPortsExclude := e₂ } := by
  rw [insertInboundRules, insertInboundRules]
  by_cases h0 : cfg.InboundPortsInclude = ""
  · rw [if_pos h0, if_pos h0]
  · rw [if_neg h0, if_neg h0, if_neg h, if_neg h]

lemma insertOutboundRules_exclude_irrelevant (cfg : Config) (e₁ e₂ : String)
    (h : cfg.OutboundPortsInclude ≠ "*") :
    insertOutboundRules { cfg with OutboundPortsExclude := e₁ } =
      insertOutboundRules { cfg with OutboundPortsExclude := e₂ } := by
  rw [insertOutboundRules, insertOutboundRules]
  by_cases h0 : cfg.OutboundPortsInclude = ""
  · rw [if_pos h0, if_pos h0]
  · rw [if_neg h0, if_neg h0, if_neg h, if_neg h]

/-- C5: Two configurations that differ only in inboundPortsExclude emit
identical rule sequences whenever inboundPortsInclude is not the
wildcard marker, and likewise for outboundPortsExclude when
outboundPortsInclude is not the wildcard marker. -/
theorem exclude_lists_inert (cfg : Config) (e₁ e₂ : String) :
    (cfg.InboundPortsInclude ≠ "*" →
      run { cfg with InboundPortsExclude := e₁ } =
        run { cfg with InboundPortsExclude := e₂ }) ∧
    (cfg.OutboundPortsInclude ≠ "*" →
      run { cfg with OutboundPortsExclude := e₁ } =
        run { cfg with OutboundPortsExclude := e₂ }) := by
  constructor
  · intro h
    rw [run, run, insertInboundRules_exclude_irrelevant cfg e₁ e₂ h]
    rfl
  · intro h
    rw [run, run, insertOutboundRules_exclude_irrelevant cfg e₁ e₂ h]
    rfl

/-- Closed instance of the exclude-inertness theorem: with an explicit
inbound include list and an empty outbound include list, changing either
exclude list leaves the emitted sequence unchanged. -/
theorem exclude_lists_inert_witness :
    run { cfgA with InboundPortsInclude := "80", InboundPortsExclude := "7" } =
      run { cfgA with InboundPortsInclude := "80", InboundPortsExclude := "8" } ∧
    run { cfgA with OutboundPortsExclude := "7" } =
      run { cfgA with OutboundPortsExclude := "8" } :=
  ⟨(exclude_lists_inert { cfgA with InboundPortsInclude := "80" } "7" "8").1
      (by decide),
    (exclude_lists_inert cfgA "7" "8").2 (by decide)⟩

/-- C6: With an empty inboundPortsInclude no inbound capture rule (no
PREROUTING jump, no inbound-chain rule) is emitted, and with an empty
outboundPortsInclude no outbound capture rule is emitted. -/
theorem empty_include_disables_capture (cfg : Config) :
    (cfg.InboundPortsInclude = "" →
      ∀ r ∈ run cfg, ¬ isInboundCaptureRule r) ∧
    (cfg.OutboundPortsInclude = "" →
      ∀ r ∈ run cfg, ¬ isOutboundCaptureRule r) := by
  constructor
  · intro h r hr
    rw [run] at hr
    rcases List.mem_append.mp hr with hr | ho
    rcases List.mem_append.mp hr with hr | hi
    rcases List.mem_append.mp hr with hb | hs
    · rcases mem_baselineRules_chain hb with hc | hc <;>
        exact not_inboundCapture_of_chain
          (by rw [hc]; decide) (by rw [hc]; decide)
    · have hc := mem_insertSkipRules_chain hs
      exact not_inboundCapture_of_chain (by rw [hc]; decide) (by rw [hc]; decide)
    · rw [insertInboundRules, if_pos h] at hi
      cases hi
    · have hc := (mem_insertOutboundRules_shape ho).1
      exact not_inboundCapture_of_chain (by rw [hc]; decide) (by rw [hc]; decide)
  · intro h r hr
    rw [run] at hr
    rcases List.mem_append.mp hr with hr | ho
    rcases List.mem_append.mp hr with hr | hi
    rcases List.mem_append.mp hr with hb | hs
    · rcases mem_baselineRules_chain hb with hc | hc <;>
        exact not_outboundCapture_of_chain (by rw [hc]; decide)
    · rcases mem_insertSkipRules_head hs with hc | hc <;>
        exact not_outboundCapture_of_head (by rw [hc]; decide)
    · rcases mem_insertInboundRules_chain hi with hc | hc <;>
        exact not_outboundCapture_of_chain (by rw [hc]; decide)
    · rw [insertOutboundRules, if_pos h] at ho
      cases ho

/-- Closed instance of the empty-include theorem at a configuration with
both include lists empty, applied to the first emitted rule. -/
theorem empty_include_disables_capture_witness :
    ¬ isInboundCaptureRule (appendRuleV4 RedirectChain "nat"
        ["-p", "tcp", "-j", "REDIRECT", "--to-ports", "9080"]) ∧
    ¬ isOutboundCaptureRule (appendRuleV4 RedirectChain "nat"
        ["-p", "tcp", "-j", "REDIRECT", "--to-ports", "9080"]) :=
  ⟨(empty_include_disables_capture
        { cfgA with InboundPortsInclude := "" }).1 rfl _
      (List.mem_cons_self _ _),
    (empty_include_disables_capture
        { cfgA with InboundPortsInclude := "" }).2 rfl _
      (List.mem_cons_self _ _)⟩

/-- C7: Every configuration with outboundPortsInclude 80 and the other
three port lists empty emits exactly the two baseline rules, the two
skip rules, and a single outbound jump of destination port 80 to the
redirect chain — five rules, no inbound rule. -/
theorem scenarioB_rule_sequence (cfg : Config)
    (h1 : cfg.OutboundPortsInclude = "80")
    (h2 : cfg.InboundPortsInclude = "")
    (h3 : cfg.InboundPortsExclude = "")
    (h4 : cfg.OutboundPortsExclude = "") :
    run cfg =
      [ appendRuleV4 RedirectChain "nat"
          ["-p", "tcp", "-j", "REDIRECT", "--to-ports", cfg.ProxyPort],
        appendRuleV4 InboundRedirectChain "nat"
          ["-p", "tcp", "-j", "REDIRECT", "--to-ports",
           cfg.InboundCapturePort],
        appendRuleV4 OutputChain "nat"
          ["-o", "lo", "!", "-d", "127.0.0.1/32", "-m", "owner",
           "--uid-owner", cfg.ProxyUID, "-j", "RETURN"],
        appendRuleV4 OutputChain "nat"
          ["-m", "owner", "--gid-owner", cfg.ProxyGID, "-j", "RETURN"],
        appendRuleV4 OutputChain "nat"
          ["-p", "tcp", "--dport", "80", "-j", RedirectChain] ] := by
  rw [run, insertInboundRules, if_pos h2, insertOutboundRules,
    if_neg (by rw [h1]; decide), if_neg (by rw [h1]; decide), h1,
    show split "80" = ["80"] from by decide]
  rfl

/-- Closed instance of the scenario-B theorem at a concrete
configuration. -/
theorem scenarioB_rule_sequence_witness :
    run cfgB =
      [ appendRuleV4 RedirectChain "nat"
          ["-p", "tcp", "-j", "REDIRECT", "--to-ports", "9080"],
        appendRuleV4 InboundRedirectChain "nat"
          ["-p", "tcp", "-j", "REDIRECT", "--to-ports", "9081"],
        appendRuleV4 OutputChain "nat"
          ["-o", "lo", "!", "-d", "127.0.0.1/32", "-m", "owner",
           "--uid-owner", "100", "-j", "RETURN"],
        appendRuleV4 OutputChain "nat"
          ["-m", "owner", "--gid-owner", "100", "-j", "RETURN"],
        appendRuleV4 OutputChain "nat"
          ["-p", "tcp", "--dport", "80", "-j", RedirectChain] ] :=
  scenarioB_rule_sequence cfgB rfl rfl rfl rfl

lemma mem_run_v4_nat {cfg : Config} {r : Rule} (h : r ∈ run cfg) :
    r.version = IPVersion.v4 ∧ r.table = "nat" := by
  rw [run] at h
  rcases List.mem_append.mp h with h | ho
  rcases List.mem_append.mp h with h | hi
  rcases List.mem_append.mp h with hb | hs
  · rcases List.mem_cons.mp hb with rfl | hb2
    · exact ⟨rfl, rfl⟩
    · obtain rfl := List.mem_singleton.mp hb2
      exact ⟨rfl, rfl⟩
  · rcases List.mem_cons.mp hs with rfl | hs2
    · exact ⟨rfl, rfl⟩
    · obtain rfl := List.mem_singleton.mp hs2
      exact ⟨rfl, rfl⟩
  · rw [insertInboundRules] at hi
    by_cases h1 : cfg.InboundPortsInclude = ""
    · rw [if_pos h1] at hi
      cases hi
    · rw [if_neg h1] at hi
      rcases List.mem_cons.mp hi with rfl | h2
      · exact ⟨rfl, rfl⟩
      · by_cases h3 : cfg.InboundPortsInclude = "*"
        · rw [if_pos h3] at h2
          rcases List.mem_cons.mp h2 with rfl | h4
          · exact ⟨rfl, rfl⟩
          · rcases List.mem_append.mp h4 with h5 | h5
            · by_cases h6 : cfg.InboundPortsExclude ≠ ""
              · rw [if_pos h6] at h5
                rcases List.mem_map.mp h5 with ⟨port, _, rfl⟩
                exact ⟨rfl, rfl⟩
              · rw [if_neg h6] at h5
                cases h5
            · obtain rfl := List.mem_singleton.mp h5
              exact ⟨rfl, rfl⟩
        · rw [if_neg h3] at h2
          rcases List.mem_map.mp h2 with ⟨port, _, rfl⟩
          exact ⟨rfl, rfl⟩
  · rw [insertOutboundRules] at ho
    by_cases h1 : cfg.OutboundPortsInclude = ""
    · rw [if_pos h1] at ho
      cases ho
    · rw [if_neg h1] at ho
      by_cases h2 : cfg.OutboundPortsInclude = "*"
      · rw [if_pos h2] at ho
        rcases List.mem_append.mp ho with h3 | h3
        · by_cases h4 : cfg.OutboundPortsExclude ≠ ""
          · rw [if_pos h4] at h3
            rcases List.mem_map.mp h3 with ⟨port, _, rfl⟩
            exact ⟨rfl, rfl⟩
          · rw [if_neg h4] at h3
            cases h3
        · obtain rfl := List.mem_singleton.mp h3
          exact ⟨rfl, rfl⟩
      · rw [if_neg h2] at ho
        rcases List.mem_map.mp ho with ⟨port, _, rfl⟩
        exact ⟨rfl, rfl⟩

/-- C9: On every configuration each emitted rule insertion is an IPv4
rule on the nat table, so the realized IPv4 rule set is the whole
emission, and the first two emitted rules are always the two baseline
redirect-target rules. -/
theorem rules_all_v4_nat_baseline_first (cfg : Config) :
    (∀ r ∈ run cfg, r.version = IPVersion.v4 ∧ r.table = "nat") ∧
    (run cfg).filter (fun r => r.version == IPVersion.v4) = run cfg ∧
    (run cfg).take 2 = baselineRules cfg := by
  refine ⟨fun r hr => mem_run_v4_nat hr, ?_, rfl⟩
  refine List.filter_eq_self.mpr fun r hr => ?_
  rw [(mem_run_v4_nat hr).1]
  rfl

/-- Closed instance of the all-IPv4 nat theorem at the scenario-A
configuration, applied to the first emitted rule. -/
theorem rules_all_v4_nat_baseline_first_witness :
    (appendRuleV4 RedirectChain "nat"
        ["-p", "tcp", "-j", "REDIRECT", "--to-ports", "9080"]).version =
      IPVersion.v4 ∧
    (appendRuleV4 RedirectChain "nat"
        ["-p", "tcp", "-j", "REDIRECT", "--to-ports", "9080"]).table =
      "nat" :=
  (rules_all_v4_nat_baseline_first cfgA).1 _ (List.mem_cons_self _ _)

/-- C10: The proxy identity is never independently configurable: the
command body sets both ProxyUID and ProxyGID from the single user
lookup, aborts with no rules when that lookup fails, and any
preconfigured ProxyUID and ProxyGID values have no effect on the
output. -/
theorem proxy_identity_from_single_lookup (lookup : String → Option User)
    (cfg : Config) (u : String) :
    (lookup u = none → runCommand lookup u cfg = none) ∧
    (∀ usr : User, lookup u = some usr →
      runCommand lookup u cfg =
        some (run { cfg with ProxyUID := usr.Uid, ProxyGID := usr.Gid }) ∧
      ∀ p g : String,
        runCommand lookup u { cfg with ProxyUID := p, ProxyGID := g } =
          runCommand lookup u cfg) := by
  constructor
  · intro h
    rw [runCommand, h]
  · intro usr h
    constructor
    · rw [runCommand, h]
    · intro p g
      rw [runCommand, runCommand, h]

/-- Closed instance of the single-lookup theorem: a failing lookup
aborts with no rules, and a successful lookup of the default user
overrides any preset identity. -/
theorem proxy_identity_from_single_lookup_witness :
    runCommand (fun _ => none) defaultProxyUser cfgA = none ∧
    runCommand (fun _ => some ⟨"65534", "65534"⟩) defaultProxyUser
        { cfgA with ProxyUID := "0", ProxyGID := "0" } =
      runCommand (fun _ => some ⟨"65534", "65534"⟩) defaultProxyUser cfgA :=
  ⟨(proxy_identity_from_single_lookup (fun _ => none) cfgA
        defaultProxyUser).1 rfl,
    ((proxy_identity_from_single_lookup (fun _ => some ⟨"65534", "65534"⟩)
        cfgA defaultProxyUser).2 ⟨"65534", "65534"⟩ rfl).2 "0" "0"⟩

end Amesh
